import Mathlib

/-!
Verification of the ETL pipeline core: a shallow embedding of the
transformation engine and validation engine of
src/tools/transform_tool.py and of the LangGraph pipeline state machine
of src/agent/etl_agent.py, followed by theorems about the embedded
definitions.

Modelling conventions:
- pandas cell values are modelled by `Val`: exact rationals stand in for
  the numeric dtypes, `String` for text, and an integer count of seconds
  for datetimes.  A null cell (NaN / NaT / None) is `Option.none`.
- Python exceptions are modelled by `Except String`; the error strings
  follow the corresponding Python messages, with quote characters
  omitted.
- The external pandas date parser is modelled by a simplified
  ISO-format parser (`parseDateStr`); its exact calendar arithmetic is
  irrelevant to every claim proved here.
-/

set_option maxHeartbeats 1000000

namespace ETLSpec

/-- A scalar cell value in the in-memory table. -/
inductive Val where
  | num : Rat → Val
  | str : String → Val
  | dt : Int → Val
deriving DecidableEq, Repr

/-- A cell is a value or a null. -/
abbrev Cell := Option Val

/-- The in-memory table, modelling the pandas DataFrame held in
`TransformationExecutor.df`: a list of column names plus row-major data. -/
structure Table where
  header : List String
  rows : List (List Cell)
deriving DecidableEq, Repr

/-- Cell of a row at column position `i` (out of range reads as null;
well-formed tables are rectangular so this case never fires for them). -/
def cellAt (r : List Cell) (i : Nat) : Cell := (r.get? i).getD none

/-- Position of a named column in the header, mirroring the pandas
column lookup `df[name]`. -/
def colIdx (t : Table) (c : String) : Option Nat :=
  t.header.findIdx? (fun h => h == c)

/-- The full column at position `i`. -/
def colCells (t : Table) (i : Nat) : List Cell :=
  t.rows.map (fun r => cellAt r i)

/-- Python f-string rendering of an optional string (None prints as
"None"). -/
def optStr (o : Option String) : String :=
  match o with
  | some s => s
  | none => "None"

/-- Column lookup `self.df[column]`; a missing column raises KeyError
(the quotes of the Python rendering are omitted). -/
def reqColIdx (t : Table) (c : Option String) : Except String (String × Nat) :=
  match c with
  | none => .error "KeyError: None"
  | some name =>
      match colIdx t name with
      | some i => .ok (name, i)
      | none => .error s!"KeyError: {name}"

/-- Rewrite the column at position `i` cell-wise. -/
def mapCol (t : Table) (i : Nat) (f : Cell → Cell) : Table :=
  { t with rows := t.rows.map (fun r => r.set i (f (cellAt r i))) }

/-- Overwrite the column at position `i` with the given cells
(positional assignment of a computed series). -/
def setColList (t : Table) (i : Nat) (cells : List Cell) : Table :=
  { t with rows := (t.rows.zip cells).map (fun p => p.1.set i p.2) }

/-- Error-propagating map over a list, modelling a Python loop in which
the first exception aborts the whole operation. -/
def mapME {α β : Type} (g : α → Except String β) : List α → Except String (List β)
  | [] => .ok []
  | a :: as =>
      match g a with
      | .error e => .error e
      | .ok b =>
          match mapME g as with
          | .error e => .error e
          | .ok bs => .ok (b :: bs)

/-! ### Cell-level operations used by the transformation steps -/

/-- Simplified model of the external pandas datetime parser: an
ISO-format date is mapped to a count of seconds (simplified calendar);
anything else is unparsable.  Only totality and coerce-to-null matter to
the claims. -/
def parseDateStr (s : String) : Option Int :=
  match (s.take 10).splitOn "-" with
  | [ys, ms, ds] =>
      match ys.toNat?, ms.toNat?, ds.toNat? with
      | some y, some m, some d => some (((y * 372 + m * 31 + d : Nat) : Int) * 86400)
      | _, _, _ => none
  | _ => none

/-- `pd.to_datetime(..., errors="coerce")` cell-wise: unparsable cells
become null; the optional format argument of the source selects between
two coercing library calls and is modelled by the same conversion. -/
def pdToDatetime (c : Cell) : Cell :=
  match c with
  | none => none
  | some (.dt d) => some (.dt d)
  | some (.num q) => some (.dt q.floor)
  | some (.str s) => (parseDateStr s).map Val.dt

/-- `pd.to_numeric(..., errors="coerce")` cell-wise. -/
def pdToNumeric (c : Cell) : Cell :=
  match c with
  | none => none
  | some (.num q) => some (.num q)
  | some (.dt d) => some (.num (d : Rat))
  | some (.str s) => (s.toInt?).map (fun n => Val.num (n : Rat))

/-- Approximate dtype report used only inside a detail string. -/
def dtypeOf (cells : List Cell) : String :=
  if (cells.filterMap id).all (fun v => match v with | .num _ => true | _ => false) then
    "float64"
  else if (cells.filterMap id).all (fun v => match v with | .dt _ => true | _ => false) then
    "datetime64"
  else "object"

/-- Elementwise `series < 0`: null compares False, non-numeric values
raise TypeError as in pandas. -/
def cellLt0 : Cell → Except String Bool
  | none => .ok false
  | some (.num q) => .ok (decide (q < 0))
  | some (.str _) => .error "TypeError: comparison of str and int"
  | some (.dt _) => .error "TypeError: comparison of Timestamp and int"

/-- Elementwise `series >= 0`. -/
def cellGe0 : Cell → Except String Bool
  | none => .ok false
  | some (.num q) => .ok (decide (0 ≤ q))
  | some (.str _) => .error "TypeError: comparison of str and int"
  | some (.dt _) => .error "TypeError: comparison of Timestamp and int"

/-- Elementwise `series > 0`. -/
def cellGt0 : Cell → Except String Bool
  | none => .ok false
  | some (.num q) => .ok (decide (0 < q))
  | some (.str _) => .error "TypeError: comparison of str and int"
  | some (.dt _) => .error "TypeError: comparison of Timestamp and int"

/-- Elementwise out-of-range test `(series < min) | (series > max)`. -/
def cellOutOfRange (mn mx : Rat) : Cell → Except String Bool
  | none => .ok false
  | some (.num q) => .ok (decide (q < mn) || decide (mx < q))
  | some (.str _) => .error "TypeError: comparison of str and int"
  | some (.dt _) => .error "TypeError: comparison of Timestamp and int"

/-- Numeric aggregation input: the non-null values of a column, failing
with TypeError when a non-numeric value is present (pandas raises for
object-dtype aggregation). -/
def numsOf (cells : List Cell) : Except String (List Rat) :=
  mapME (fun v => match v with
    | Val.num q => Except.ok q
    | _ => Except.error "TypeError: could not aggregate non-numeric column")
    (cells.filterMap id)

def insertSorted (q : Rat) : List Rat → List Rat
  | [] => [q]
  | x :: xs => if q ≤ x then q :: x :: xs else x :: insertSorted q xs

def sortRats (l : List Rat) : List Rat := l.foldr insertSorted []

/-- `Series.mean`: none when there is no numeric value (the mean is NaN
and filling with NaN leaves nulls in place). -/
def meanOf (nums : List Rat) : Option Rat :=
  if nums.length = 0 then none else some (nums.sum / (nums.length : Rat))

/-- `Series.median` (average of the two middle values for even counts). -/
def medianOf (nums : List Rat) : Option Rat :=
  let s := sortRats nums
  let n := s.length
  if n = 0 then none
  else if n % 2 = 1 then some ((s.get? (n / 2)).getD 0)
  else some ((((s.get? (n / 2 - 1)).getD 0) + ((s.get? (n / 2)).getD 0)) / 2)

def valRank : Val → Nat
  | .num _ => 0
  | .dt _ => 1
  | .str _ => 2

/-- Tie-break order used by the mode model (pandas returns the sorted
modal values and the source takes element 0). -/
def valLt (a b : Val) : Bool :=
  match a, b with
  | .num p, .num q => decide (p < q)
  | .dt p, .dt q => decide (p < q)
  | .str p, .str q => decide (p < q)
  | x, y => decide (valRank x < valRank y)

/-- `Series.mode()[0]`: the most frequent non-null value (least such
value on ties); indexing an empty mode raises KeyError 0. -/
def modeOf (vs : List Val) : Except String Val :=
  match vs with
  | [] => .error "KeyError: 0"
  | v0 :: _ =>
      .ok (vs.foldl (fun best v =>
        if vs.count best < vs.count v then v
        else if (vs.count v == vs.count best) && valLt v best then v
        else best) v0)

/-- Replace a null cell by the given fill cell (`Series.fillna`). -/
def fillCell (fill : Cell) (c : Cell) : Cell :=
  match c with
  | none => fill
  | some v => some v

/-- `fillna(method="ffill")`: each null takes the closest preceding
non-null value. -/
def ffillGo (carry : Cell) : List Cell → List Cell
  | [] => []
  | c :: cs =>
      match c with
      | none => carry :: ffillGo carry cs
      | some v => some v :: ffillGo (some v) cs

/-- `drop_duplicates(keep="first")` keyed by `key`: a row is dropped
when its key was already seen earlier. -/
def dedupKeysAux {α κ : Type} [DecidableEq κ] (key : α → κ) : List κ → List α → List α
  | _, [] => []
  | seen, x :: xs =>
      if key x ∈ seen then dedupKeysAux key seen xs
      else x :: dedupKeysAux key (key x :: seen) xs

/-! ### The transformation steps (TransformationExecutor helpers) -/

/-- One transformation instruction.  The planner emits step
dictionaries and the executor reads each key with `dict.get`, which
yields None for an absent key; hence every field is optional.  The
source key named case is modelled by the field `textCase` (Lean keyword
clash). -/
structure Step where
  action : Option String := none
  column : Option String := none
  format : Option String := none
  strategy : Option String := none
  value : Option Val := none
  valid_values : Option (List Val) := none
  new_name : Option String := none
  new_column : Option String := none
  expression : Option String := none
  textCase : Option String := none
  subset : Option (List String) := none
  condition : Option String := none
deriving DecidableEq, Repr

/-- `TransformationExecutor._convert_datetime`. -/
def convertDatetime (t : Table) (col : Option String) (_fmt : Option String) :
    Except String (Table × String) :=
  match reqColIdx t col with
  | .error e => .error e
  | .ok (_, i) =>
      let beforeNull := (colCells t i).count none
      let t2 := mapCol t i pdToDatetime
      let afterNull := (colCells t2 i).count none
      .ok (t2, s!"Converted to datetime. New nulls from conversion: {afterNull - beforeNull}")

/-- `TransformationExecutor._fill_null`.  The source computes the null
count first (raising KeyError for a missing column), then dispatches on
the strategy string; an unrecognized strategy falls through to the
final success return with the table untouched. -/
def fillNull (t : Table) (col : Option String) (strategy : Option String)
    (value : Option Val) : Except String (Table × String) :=
  match reqColIdx t col with
  | .error e => .error e
  | .ok (_, i) =>
      let nullCount := (colCells t i).count none
      if strategy = some "value" then
        match value with
        | none => .error "ValueError: Must specify a fill value or method"
        | some v =>
            .ok (mapCol t i (fillCell (some v)),
              s!"Filled {nullCount} null values using value")
      else if strategy = some "mean" then
        match numsOf (colCells t i) with
        | .error e => .error e
        | .ok nums =>
            .ok (mapCol t i (fillCell ((meanOf nums).map Val.num)),
              s!"Filled {nullCount} null values using mean")
      else if strategy = some "median" then
        match numsOf (colCells t i) with
        | .error e => .error e
        | .ok nums =>
            .ok (mapCol t i (fillCell ((medianOf nums).map Val.num)),
              s!"Filled {nullCount} null values using median")
      else if strategy = some "mode" then
        match modeOf ((colCells t i).filterMap id) with
        | .error e => .error e
        | .ok m =>
            .ok (mapCol t i (fillCell (some m)),
              s!"Filled {nullCount} null values using mode")
      else if strategy = some "forward_fill" then
        .ok (setColList t i (ffillGo none (colCells t i)),
          s!"Filled {nullCount} null values using forward_fill")
      else if strategy = some "drop" then
        .ok ({ t with rows := t.rows.filter (fun r => (cellAt r i).isSome) },
          s!"Dropped {nullCount} rows with null values")
      else
        .ok (t, s!"Filled {nullCount} null values using {optStr strategy}")

/-- `TransformationExecutor._remove_negative`: counts `df[col] < 0`,
then keeps the rows where `df[col] >= 0` (a null compares False on both
sides, so null rows are dropped but not counted). -/
def removeNegative (t : Table) (col : Option String) : Except String (Table × String) :=
  match reqColIdx t col with
  | .error e => .error e
  | .ok (_, i) =>
      match mapME cellLt0 (colCells t i) with
      | .error e => .error e
      | .ok ltFlags =>
          match mapME cellGe0 (colCells t i) with
          | .error e => .error e
          | .ok geFlags =>
              .ok ({ t with rows :=
                      ((t.rows.zip geFlags).filter (fun p => p.2)).map (fun p => p.1) },
                s!"Removed {ltFlags.count true} rows with negative values")

/-- `TransformationExecutor._remove_invalid`: `isin` never raises;
a null is not a member of any value list. -/
def removeInvalid (t : Table) (col : Option String) (vv : Option (List Val)) :
    Except String (Table × String) :=
  match reqColIdx t col with
  | .error e => .error e
  | .ok (_, i) =>
      match vv with
      | none => .error "TypeError: only list-like objects are allowed to be passed to isin"
      | some vals =>
          let isinFlags := (colCells t i).map (fun c =>
            match c with
            | some v => vals.contains v
            | none => false)
          .ok ({ t with rows :=
                  ((t.rows.zip isinFlags).filter (fun p => p.2)).map (fun p => p.1) },
            s!"Removed {(isinFlags.map (fun b => !b)).count true} rows with invalid values")

/-- `TransformationExecutor._convert_numeric`. -/
def convertNumeric (t : Table) (col : Option String) : Except String (Table × String) :=
  match reqColIdx t col with
  | .error e => .error e
  | .ok (_, i) =>
      let before := dtypeOf (colCells t i)
      let t2 := mapCol t i pdToNumeric
      .ok (t2, s!"Converted from {before} to {dtypeOf (colCells t2 i)}")

/-- `TransformationExecutor._rename_column`: `df.rename` silently
ignores a missing key, so this step never raises; the corner cases with
a None old or new name are modelled as a no-op on the header. -/
def renameColumn (t : Table) (old newName : Option String) : Except String (Table × String) :=
  match old, newName with
  | some o, some n =>
      .ok ({ t with header := t.header.map (fun h => if h == o then n else h) },
        s!"Renamed {o} to {n}")
  | _, _ => .ok (t, s!"Renamed {optStr old} to {optStr newName}")

/-- `TransformationExecutor._drop_column`: `df.drop` raises KeyError
for a missing column. -/
def dropColumn (t : Table) (col : Option String) : Except String (Table × String) :=
  match reqColIdx t col with
  | .error e => .error e
  | .ok (name, i) =>
      .ok ({ header := t.header.eraseIdx i, rows := t.rows.map (fun r => r.eraseIdx i) },
        s!"Dropped column {name}")

/-- Assign a computed series to a column name: overwrite when present,
append a new column otherwise. -/
def putCol (t : Table) (name : String) (cells : List Cell) : Table :=
  match colIdx t name with
  | some i => setColList t i cells
  | none =>
      { header := t.header ++ [name],
        rows := (t.rows.zip cells).map (fun p => p.1 ++ [p.2]) }

/-- Datetime difference in minutes (`.dt.total_seconds() / 60`); a null
operand gives null, a non-datetime operand raises. -/
def subDtMinutes (a b : Cell) : Except String Cell :=
  match a, b with
  | none, _ => .ok none
  | _, none => .ok none
  | some (.dt x), some (.dt y) => .ok (some (.num (((x - y : Int) : Rat) / 60)))
  | _, _ => .error "TypeError: unsupported operand types for datetime subtraction"

/-- `series.replace(0, np.nan)` cell-wise. -/
def replaceZeroNull (c : Cell) : Cell :=
  match c with
  | some (.num q) => if q == 0 then none else some (.num q)
  | c => c

/-- Elementwise division; null propagates, non-numeric operands raise.
(The fixed derivations divide only by series whose zeros were replaced
by null, so no division by zero is reachable there.) -/
def divCells (a b : Cell) : Except String Cell :=
  match a, b with
  | none, _ => .ok none
  | _, none => .ok none
  | some (.num x), some (.num y) => .ok (some (.num (x / y)))
  | _, _ => .error "TypeError: unsupported operand types for division"

/-- `TransformationExecutor._add_derived_column`: only the three fixed
derivations keyed by the new column name are ever computed; the
expression parameter of the step is never read; an unknown name raises
ValueError before anything is evaluated. -/
def addDerivedColumn (t : Table) (newCol : Option String) : Except String (Table × String) :=
  if newCol = some "trip_duration_minutes" then
    match reqColIdx t (some "tpep_dropoff_datetime") with
    | .error e => .error e
    | .ok (_, i1) =>
        match reqColIdx t (some "tpep_pickup_datetime") with
        | .error e => .error e
        | .ok (_, i2) =>
            match mapME (fun r => subDtMinutes (cellAt r i1) (cellAt r i2)) t.rows with
            | .error e => .error e
            | .ok cells =>
                .ok (putCol t "trip_duration_minutes" cells,
                  "Added derived column trip_duration_minutes")
  else if newCol = some "fare_per_mile" then
    match reqColIdx t (some "fare_amount") with
    | .error e => .error e
    | .ok (_, i1) =>
        match reqColIdx t (some "trip_distance") with
        | .error e => .error e
        | .ok (_, i2) =>
            match mapME (fun r => divCells (cellAt r i1) (replaceZeroNull (cellAt r i2)))
                t.rows with
            | .error e => .error e
            | .ok cells =>
                .ok (putCol t "fare_per_mile" cells, "Added derived column fare_per_mile")
  else if newCol = some "tip_percentage" then
    match reqColIdx t (some "tip_amount") with
    | .error e => .error e
    | .ok (_, i1) =>
        match reqColIdx t (some "fare_amount") with
        | .error e => .error e
        | .ok (_, i2) =>
            match mapME (fun r =>
                match divCells (cellAt r i1) (replaceZeroNull (cellAt r i2)) with
                | .error e => .error e
                | .ok (some (.num x)) => .ok (some (.num (x * 100)))
                | .ok c => .ok c) t.rows with
            | .error e => .error e
            | .ok cells =>
                .ok (putCol t "tip_percentage" cells, "Added derived column tip_percentage")
  else
    .error s!"Unknown derived column: {optStr newCol}"

/-- Python `str.title` (simplified: capitalize space-separated words). -/
def titleCase (s : String) : String :=
  String.intercalate " " ((s.splitOn " ").map String.capitalize)

/-- `.str` accessor cell-wise on an object column: non-text values map
to null. -/
def strCell (f : String → String) (c : Cell) : Cell :=
  match c with
  | some (.str s) => some (.str (f s))
  | _ => none

/-- `TransformationExecutor._standardize_text`: an unrecognized case
string touches no column at all and still reports success. -/
def standardizeText (t : Table) (col : Option String) (cs : Option String) :
    Except String (Table × String) :=
  if cs = some "lower" then
    match reqColIdx t col with
    | .error e => .error e
    | .ok (_, i) =>
        .ok (mapCol t i (strCell String.toLower),
          s!"Standardized {optStr col} to {optStr cs}case")
  else if cs = some "upper" then
    match reqColIdx t col with
    | .error e => .error e
    | .ok (_, i) =>
        .ok (mapCol t i (strCell String.toUpper),
          s!"Standardized {optStr col} to {optStr cs}case")
  else if cs = some "title" then
    match reqColIdx t col with
    | .error e => .error e
    | .ok (_, i) =>
        .ok (mapCol t i (strCell titleCase),
          s!"Standardized {optStr col} to {optStr cs}case")
  else
    .ok (t, s!"Standardized {optStr col} to {optStr cs}case")

/-- `TransformationExecutor._remove_duplicates`: drop rows whose full
row (or subset projection) was already seen, keeping the first
occurrence. -/
def removeDuplicates (t : Table) (subset : Option (List String)) :
    Except String (Table × String) :=
  match subset with
  | none =>
      let rows2 := dedupKeysAux (fun r => r) [] t.rows
      .ok ({ t with rows := rows2 },
        s!"Removed {t.rows.length - rows2.length} duplicate rows")
  | some cols =>
      match mapME (fun c =>
          match colIdx t c with
          | some i => Except.ok i
          | none => Except.error s!"KeyError: {c}") cols with
      | .error e => .error e
      | .ok idxs =>
          let rows2 := dedupKeysAux (fun r => idxs.map (fun i => cellAt r i)) [] t.rows
          .ok ({ t with rows := rows2 },
            s!"Removed {t.rows.length - rows2.length} duplicate rows")

/-- Keep the rows where the named column is strictly positive (the
body shared by the three fixed filter conditions). -/
def filterByColGt0 (t : Table) (name : String) : Except String Table :=
  match reqColIdx t (some name) with
  | .error e => .error e
  | .ok (_, i) =>
      match mapME cellGt0 (colCells t i) with
      | .error e => .error e
      | .ok flags =>
          .ok { t with rows := ((t.rows.zip flags).filter (fun p => p.2)).map (fun p => p.1) }

/-- `TransformationExecutor._filter_rows`: only the three fixed
condition identifiers are accepted; anything else raises ValueError
without touching the table. -/
def filterRows (t : Table) (cond : Option String) : Except String (Table × String) :=
  let before := t.rows.length
  if cond = some "valid_trip_distance" then
    match filterByColGt0 t "trip_distance" with
    | .error e => .error e
    | .ok t2 =>
        .ok (t2, s!"Filtered out {before - t2.rows.length} rows using condition: {optStr cond}")
  else if cond = some "valid_fare" then
    match filterByColGt0 t "fare_amount" with
    | .error e => .error e
    | .ok t2 =>
        .ok (t2, s!"Filtered out {before - t2.rows.length} rows using condition: {optStr cond}")
  else if cond = some "valid_passengers" then
    match filterByColGt0 t "passenger_count" with
    | .error e => .error e
    | .ok t2 =>
        .ok (t2, s!"Filtered out {before - t2.rows.length} rows using condition: {optStr cond}")
  else
    .error s!"Unknown filter condition: {optStr cond}"

/-- `TransformationExecutor._execute_step`: dispatch on the action
string; an unknown action raises ValueError. -/
def executeStep (t : Table) (s : Step) : Except String (Table × String) :=
  if s.action = some "convert_datetime" then convertDatetime t s.column s.format
  else if s.action = some "fill_null" then fillNull t s.column s.strategy s.value
  else if s.action = some "remove_negative" then removeNegative t s.column
  else if s.action = some "remove_invalid" then removeInvalid t s.column s.valid_values
  else if s.action = some "convert_numeric" then convertNumeric t s.column
  else if s.action = some "rename_column" then renameColumn t s.column s.new_name
  else if s.action = some "drop_column" then dropColumn t s.column
  else if s.action = some "add_derived_column" then addDerivedColumn t s.new_column
  else if s.action = some "standardize_text" then standardizeText t s.column s.textCase
  else if s.action = some "remove_duplicates" then removeDuplicates t s.subset
  else if s.action = some "filter_rows" then filterRows t s.condition
  else .error s!"Unknown transformation action: {optStr s.action}"

/-! ### The plan executor (TransformationExecutor.execute_plan) -/

/-- One record of `transformation_log`: a success entry carries a
details text, a failure entry the exception text. -/
structure LogEntry where
  step : Nat
  action : Option String
  column : Option String
  status : String
  details : Option String
  error : Option String
deriving DecidableEq, Repr

def mkSuccess (i : Nat) (s : Step) (d : String) : LogEntry :=
  ⟨i + 1, s.action, s.column, "success", some d, none⟩

def mkFailed (i : Nat) (s : Step) (e : String) : LogEntry :=
  ⟨i + 1, s.action, s.column, "failed", none, some e⟩

/-- The loop body of `execute_plan`: each step is attempted, a success
replaces the working table, an exception is caught, logged and skipped
(the table keeps the state of the last successful step). -/
def execGo : Nat → Table → List LogEntry → List Step → Table × List LogEntry
  | _, t, log, [] => (t, log)
  | i, t, log, s :: rest =>
      match executeStep t s with
      | .ok (t2, d) => execGo (i + 1) t2 (log ++ [mkSuccess i s d]) rest
      | .error e => execGo (i + 1) t (log ++ [mkFailed i s e]) rest

/-- The result dictionary of `execute_plan`.  The function is total:
the top-level call never raises. -/
structure ExecResult where
  success : Bool
  transformed_data : Table
  original_row_count : Nat
  final_row_count : Nat
  transformation_log : List LogEntry
deriving DecidableEq, Repr

/-- `transform_data` / `TransformationExecutor.execute_plan`. -/
def executePlan (t : Table) (plan : List Step) : ExecResult :=
  let p := execGo 0 t [] plan
  ⟨true, p.1, t.rows.length, p.1.rows.length, p.2⟩

/-- The table update of one loop iteration: a failed step is a no-op. -/
def stepTable (t : Table) (s : Step) : Table :=
  match executeStep t s with
  | .ok p => p.1
  | .error _ => t

/-! ### The validation engine (validate_data) -/

/-- One validation rule dictionary; absent keys read as None. -/
structure Rule where
  rtype : Option String := none
  column : Option String := none
  min : Option Rat := none
  max : Option Rat := none
deriving DecidableEq, Repr

/-- One record of the checks list of `validate_data`. -/
structure VCheck where
  rule : String
  passed : Bool
  details : String
deriving DecidableEq, Repr

/-- The result dictionary of `validate_data`. -/
structure VResult where
  valid : Bool
  checks : List VCheck
  warnings : List String
  errors : List String
deriving DecidableEq, Repr

/-- `df[column]` for a rule. -/
def ruleColCells (t : Table) (c : Option String) : Except String (List Cell) :=
  match reqColIdx t c with
  | .error e => .error e
  | .ok (_, i) => .ok (colCells t i)

/-- `(df[column] < 0).sum()`. -/
def countNeg (cells : List Cell) : Except String Nat :=
  match mapME cellLt0 cells with
  | .error e => .error e
  | .ok flags => .ok (flags.count true)

/-- The body of the rule loop of `validate_data`: not_null, in_range
and unique failures only append checks and warnings; positive and
row_count failures additionally append an error and set valid to
False.  An unrecognized rule type is skipped. -/
def valStep (t : Table) (acc : VResult) (r : Rule) : Except String VResult :=
  if r.rtype = some "not_null" then
    match ruleColCells t r.column with
    | .error e => .error e
    | .ok cells =>
        let nullCount := cells.count none
        let passed := nullCount == 0
        let acc2 := { acc with checks := acc.checks ++
          [⟨s!"{optStr r.column} should not have nulls", passed,
            s!"Found {nullCount} null values"⟩] }
        if passed then .ok acc2
        else .ok { acc2 with warnings := acc2.warnings ++
          [s!"Column {optStr r.column} still has {nullCount} null values"] }
  else if r.rtype = some "positive" then
    match ruleColCells t r.column with
    | .error e => .error e
    | .ok cells =>
        match countNeg cells with
        | .error e => .error e
        | .ok negCount =>
            let passed := negCount == 0
            let acc2 := { acc with checks := acc.checks ++
              [⟨s!"{optStr r.column} should be positive", passed,
                s!"Found {negCount} negative values"⟩] }
            if passed then .ok acc2
            else .ok { acc2 with
              errors := acc2.errors ++
                [s!"Column {optStr r.column} has {negCount} negative values"],
              valid := false }
  else if r.rtype = some "in_range" then
    match ruleColCells t r.column with
    | .error e => .error e
    | .ok cells =>
        match r.min, r.max with
        | some mn, some mx =>
            (match mapME (cellOutOfRange mn mx) cells with
            | .error e => .error e
            | .ok flags =>
                let outCount := flags.count true
                let passed := outCount == 0
                let acc2 := { acc with checks := acc.checks ++
                  [⟨s!"{optStr r.column} should be in range [{mn}, {mx}]", passed,
                    s!"Found {outCount} out of range values"⟩] }
                if passed then .ok acc2
                else .ok { acc2 with warnings := acc2.warnings ++
                  [s!"Column {optStr r.column} has {outCount} values out of range"] })
        | _, _ => .error "TypeError: comparison with None"
  else if r.rtype = some "unique" then
    match ruleColCells t r.column with
    | .error e => .error e
    | .ok cells =>
        let nunique := (dedupKeysAux (fun v => v) [] (cells.filterMap id)).length
        let dupCount := t.rows.length - nunique
        .ok { acc with checks := acc.checks ++
          [⟨s!"{optStr r.column} should be unique", dupCount == 0,
            s!"Found {dupCount} duplicate values"⟩] }
  else if r.rtype = some "row_count" then
    let mn := r.min.getD 0
    let passed := decide ((t.rows.length : Rat) ≥ mn)
    let acc2 := { acc with checks := acc.checks ++
      [⟨s!"Should have at least {mn} rows", passed,
        s!"Current row count: {t.rows.length}"⟩] }
    if passed then .ok acc2
    else .ok { acc2 with
      errors := acc2.errors ++ [s!"Row count {t.rows.length} is below minimum {mn}"],
      valid := false }
  else
    .ok acc

/-- Error-propagating fold for the rule loop. -/
def foldVR (g : VResult → Rule → Except String VResult) :
    VResult → List Rule → Except String VResult
  | acc, [] => .ok acc
  | acc, r :: rs =>
      match g acc r with
      | .error e => .error e
      | .ok acc2 => foldVR g acc2 rs

/-- `validate_data`: a pure function of the table and the rules (the
source only reads the frame: isna, comparisons, nunique, len). -/
def validateData (t : Table) (rules : List Rule) : Except String VResult :=
  foldVR (valStep t) ⟨true, [], [], []⟩ rules

/-- A hard-rule failure: the only two rule types whose failure sets the
overall verdict to False in `validate_data`. -/
def hardFailB (t : Table) (r : Rule) : Bool :=
  if r.rtype = some "positive" then
    match ruleColCells t r.column with
    | .error _ => false
    | .ok cells =>
        match countNeg cells with
        | .error _ => false
        | .ok n => n != 0
  else if r.rtype = some "row_count" then
    decide ((t.rows.length : Rat) < r.min.getD 0)
  else false

/-! ### The pipeline state machine (ETLAgent) -/

/-- The nodes of the LangGraph workflow; `terminal` stands for END. -/
inductive Node where
  | extract | analyze | plan | transform | validate | load | verify | handleError | terminal
deriving DecidableEq, Repr

/-- The fields of ETLState that the control flow reads or writes.  The
data-bearing fields (frames, plans, prompts, reasoning text) are
elided: no conditional edge of the graph consults them.
`validation_valid` models `validation_result.get("valid", True)`. -/
structure ETLState where
  error : String := ""
  retry_count : Nat := 0
  validation_valid : Bool := true
  final_status : String := ""
deriving DecidableEq, Repr

/-- The outcome of the LLM recovery call in `_error_node`: a parsable
corrected plan, an explicit unrecoverable signal, or an unparsable
response. -/
inductive RecoveryResp where
  | newPlan | unrecoverable | parseFail
deriving DecidableEq, Repr

/-- One step worth of external-world outcomes (extractor, planner,
validation verdict, sink); each node reads only the fields relevant to
it. -/
structure ExtInput where
  ok : Bool := true
  errMsg : String := "E"
  valid : Bool := true
  recovery : RecoveryResp := .parseFail
  count_matches : Bool := true
deriving DecidableEq, Repr

/-- `_extract_node`: the success dictionary has no error key, so the
error field is left as it was. -/
def extractNode (s : ETLState) (i : ExtInput) : ETLState :=
  if i.ok then s else { s with error := i.errMsg }

/-- `_analyze_node` touches none of the control fields. -/
def analyzeNode (s : ETLState) (_ : ExtInput) : ETLState := s

/-- `_plan_node`: a parse failure sets the error field. -/
def planNode (s : ETLState) (i : ExtInput) : ETLState :=
  if i.ok then s
  else { s with error := s!"Failed to parse transformation plan: {i.errMsg}" }

/-- `_transform_node` never sets an error (see execute_plan). -/
def transformNode (s : ETLState) (_ : ExtInput) : ETLState := s

/-- `_validate_node` stores the verdict of validate_data; it does not
touch the error or the retry counter. -/
def validateNode (s : ETLState) (i : ExtInput) : ETLState :=
  { s with validation_valid := i.valid }

/-- `_load_node`. -/
def loadNode (s : ETLState) (i : ExtInput) : ETLState :=
  if i.ok then s else { s with error := i.errMsg }

/-- `_verify_node`. -/
def verifyNode (s : ETLState) (i : ExtInput) : ETLState :=
  if i.count_matches then { s with final_status := "SUCCESS" }
  else { s with final_status := "COMPLETED_WITH_WARNINGS" }

/-- `_error_node`: with the budget exhausted the status becomes FAILED
and the counter is returned unchanged; otherwise every outcome
increments the counter, and only a parsable corrected plan clears the
error without setting FAILED. -/
def errorNode (s : ETLState) (i : ExtInput) : ETLState :=
  if 2 ≤ s.retry_count then { s with final_status := "FAILED" }
  else
    match i.recovery with
    | .unrecoverable => { s with final_status := "FAILED", retry_count := s.retry_count + 1 }
    | .newPlan => { s with retry_count := s.retry_count + 1, error := "" }
    | .parseFail => { s with final_status := "FAILED", retry_count := s.retry_count + 1 }

/-- The shared error-edge condition (`_check_extract`, `_check_plan`,
`_check_transform`, `_check_load`). -/
def checkErr (s : ETLState) : Bool := s.error ≠ ""

/-- `_check_validation`. -/
def checkValidation (s : ETLState) : String :=
  if s.error ≠ "" then "error"
  else if s.validation_valid = false ∧ s.retry_count < 2 then "retry"
  else "success"

/-- `_check_recovery`. -/
def checkRecovery (s : ETLState) : String :=
  if s.final_status = "FAILED" then "fail"
  else if s.retry_count < 2 then "retry"
  else "fail"

/-- One transition of the compiled graph: run the node body, then the
node's conditional edge. -/
def stepNode (n : Node) (s : ETLState) (i : ExtInput) : Node × ETLState :=
  match n with
  | .extract =>
      let s2 := extractNode s i
      (if checkErr s2 then .handleError else .analyze, s2)
  | .analyze => (.plan, analyzeNode s i)
  | .plan =>
      let s2 := planNode s i
      (if checkErr s2 then .handleError else .transform, s2)
  | .transform =>
      let s2 := transformNode s i
      (if checkErr s2 then .handleError else .validate, s2)
  | .validate =>
      let s2 := validateNode s i
      (if checkValidation s2 = "error" then .handleError
       else if checkValidation s2 = "retry" then .plan
       else .load, s2)
  | .load =>
      let s2 := loadNode s i
      (if checkErr s2 then .handleError else .verify, s2)
  | .verify => (.terminal, verifyNode s i)
  | .handleError =>
      let s2 := errorNode s i
      (if checkRecovery s2 = "retry" then .plan else .terminal, s2)
  | .terminal => (.terminal, s)

/-- A run: the initial state of `ETLAgent.run` at the entry node,
driven by a list of external outcomes. -/
def runTrace (inputs : List ExtInput) : Node × ETLState :=
  inputs.foldl (fun p i => stepNode p.1 p.2 i) (Node.extract, {})

/-- Number of retry transitions into Plan along a run: a step whose
source node is Validate or ErrorRecovery and whose target is Plan
(those are exactly the two retry edges of the graph). -/
def countRetryPlan : Node × ETLState → List ExtInput → Nat
  | _, [] => 0
  | (n, s), i :: rest =>
      let p := stepNode n s i
      (if (n == Node.validate || n == Node.handleError) && p.1 == Node.plan then 1 else 0)
        + countRetryPlan p rest

/-! ### Auxiliary definitions and concrete witness inputs -/

/-- A run with three consecutive failed validations: extract, analyze,
plan, transform, validate(invalid), then two more plan-transform-
validate(invalid) rounds. -/
def exTrace : List ExtInput :=
  [{}, {}, {}, {}, { valid := false },
   {}, {}, { valid := false },
   {}, {}, { valid := false }]

/-- The position, action and column of a log entry. -/
def logKey (e : LogEntry) : Nat × Option String × Option String :=
  (e.step, e.action, e.column)

def t5w : Table := ⟨["a"], [[some (Val.num 1)]]⟩

def p1w : List Step :=
  [{ action := some "rename_column", column := some "a", new_name := some "b" }]

def s5w : Step := { action := some "remove_negative", column := some "a" }

def w3t : Table := ⟨["a"], [[some (Val.num 1)], [some (Val.num (-2))]]⟩

def w3rules : List Rule := [{ rtype := some "positive", column := some "a" }]

def w3res : VResult :=
  ⟨false, [⟨"a should be positive", false, "Found 1 negative values"⟩], [],
    ["Column a has 1 negative values"]⟩

/-- True for the cells a numeric pandas column can hold: a number or a
null. -/
def numOrNull (c : Cell) : Bool :=
  match c with
  | none => true
  | some (.num _) => true
  | _ => false

/-- Strictly-negative test as a total Boolean (what `cellLt0` computes
on a numeric-or-null cell). -/
def ltB (c : Cell) : Bool :=
  match c with
  | some (.num q) => decide (q < 0)
  | _ => false

/-- Non-negative test as a total Boolean. -/
def geB (c : Cell) : Bool :=
  match c with
  | some (.num q) => decide (0 ≤ q)
  | _ => false

def w6t : Table :=
  ⟨["a"], [[some (Val.num 5)], [some (Val.num (-3))], [(none : Cell)]]⟩

def w7t : Table :=
  ⟨["a", "b"],
    [[some (Val.num 1), some (Val.str "x")],
     [(none : Cell), some (Val.str "y")],
     [(none : Cell), some (Val.str "z")]]⟩

def w8t : Table := ⟨["a"], [[some (Val.num 1)]]⟩

def w8s1 : Step := { action := some "add_derived_column", new_column := some "os_command" }

def w8s2 : Step := { action := some "filter_rows", condition := some "drop_table" }

def w9t : Table := ⟨["a"], [[some (Val.num 1)], [some (Val.num 1)], [some (Val.num 2)]]⟩

def w10t : Table := ⟨["a"], [[(none : Cell)], [some (Val.num 7)]]⟩

/-! ### Lemmas about the state machine -/

theorem errorNode_retry_le (s : ETLState) (i : ExtInput) (h : s.retry_count ≤ 2) :
    (errorNode s i).retry_count ≤ 2 := by
  unfold errorNode
  split_ifs with h2
  · simpa using h
  · cases i.recovery <;> simp <;> omega

theorem stepNode_retry_le (n : Node) (s : ETLState) (i : ExtInput)
    (h : s.retry_count ≤ 2) : (stepNode n s i).2.retry_count ≤ 2 := by
  cases n <;>
    simp only [stepNode, extractNode, analyzeNode, planNode, transformNode, validateNode,
      loadNode, verifyNode] <;>
    first
      | (exact errorNode_retry_le s i h)
      | (split_ifs <;> simpa using h)
      | simpa using h

theorem foldl_retry_le (inputs : List ExtInput) :
    ∀ p : Node × ETLState, p.2.retry_count ≤ 2 →
      (inputs.foldl (fun q i => stepNode q.1 q.2 i) p).2.retry_count ≤ 2 := by
  induction inputs with
  | nil => intro p h; simpa using h
  | cons i rest ih =>
      intro p h
      simpa using ih (stepNode p.1 p.2 i) (stepNode_retry_le p.1 p.2 i h)

/-- Claim C2: along every run the retry counter stays at most 2 (only
`_error_node` increments it, guarded by the `< 2` test), and when the
validation verdict is invalid while the counter is already at least 2,
the conditional edge of Validate routes to Load, not back to Plan. -/
theorem C2_retry_cap_and_accept (inputs : List ExtInput) (s : ETLState) (i : ExtInput)
    (herr : s.error = "") (hretry : 2 ≤ s.retry_count) (hvalid : i.valid = false) :
    (runTrace inputs).2.retry_count ≤ 2 ∧ (stepNode Node.validate s i).1 = Node.load := by
  constructor
  · exact foldl_retry_le inputs (Node.extract, {}) (by simp)
  · have h2 : ¬ s.retry_count < 2 := by omega
    simp [stepNode, validateNode, checkValidation, herr, hvalid, h2]

/-- Witness for C2 at a concrete run and a concrete validate-time
state. -/
theorem C2_retry_cap_and_accept_witness :
    ((⟨"", 2, true, ""⟩ : ETLState).error = ""
      ∧ 2 ≤ (⟨"", 2, true, ""⟩ : ETLState).retry_count
      ∧ ({ valid := false } : ExtInput).valid = false)
    ∧ ((runTrace [{}, {}, {}]).2.retry_count ≤ 2
      ∧ (stepNode Node.validate ⟨"", 2, true, ""⟩ { valid := false }).1 = Node.load) :=
  ⟨⟨rfl, by decide, rfl⟩,
    C2_retry_cap_and_accept [{}, {}, {}] ⟨"", 2, true, ""⟩ { valid := false } rfl
      (by decide) rfl⟩

/-- Counterexample to claim C1: the concrete run `exTrace` makes three
retry transitions into Plan (all via the validation-retry edge), yet
its retry counter is still 0 and the run sits in Plan again — the
validation-retry edge neither increments the counter nor bounds the
number of re-plans at 2. -/
theorem C1_counterexample :
    countRetryPlan (Node.extract, {}) exTrace = 3
    ∧ (runTrace exTrace).2.retry_count = 0
    ∧ (runTrace exTrace).1 = Node.plan := by
  refine ⟨by decide, by decide, by decide⟩

/-- Claim C1 as amended: only the error-recovery retry edge clears the
error and increments the retry counter (and it reaches Plan only when
the counter was 0 before the increment, since `_check_recovery` re-tests
the bound after it); the validation-retry edge into Plan changes
neither the error nor the retry counter, so validation re-plans are not
counted against the budget of 2. -/
theorem C1_amended_retry_paths (s t : ETLState) (i j : ExtInput)
    (hs_err : s.error = "") (hs_valid : i.valid = false) (hs_retry : s.retry_count < 2)
    (ht_status : t.final_status ≠ "FAILED") (ht_retry : t.retry_count = 0)
    (hj : j.recovery = RecoveryResp.newPlan) :
    ((stepNode Node.validate s i).1 = Node.plan
      ∧ (stepNode Node.validate s i).2.retry_count = s.retry_count
      ∧ (stepNode Node.validate s i).2.error = s.error)
    ∧ ((stepNode Node.handleError t j).1 = Node.plan
      ∧ (stepNode Node.handleError t j).2.retry_count = t.retry_count + 1
      ∧ (stepNode Node.handleError t j).2.error = "") := by
  constructor
  · simp [stepNode, validateNode, checkValidation, hs_err, hs_valid, hs_retry]
  · simp [stepNode, errorNode, checkRecovery, hj, ht_retry, ht_status]

/-- Witness for the amended C1 at concrete states. -/
theorem C1_amended_retry_paths_witness :
    ((⟨"", 1, true, ""⟩ : ETLState).error = ""
      ∧ ({ valid := false } : ExtInput).valid = false
      ∧ (⟨"", 1, true, ""⟩ : ETLState).retry_count < 2
      ∧ (⟨"boom", 0, true, ""⟩ : ETLState).final_status ≠ "FAILED"
      ∧ (⟨"boom", 0, true, ""⟩ : ETLState).retry_count = 0
      ∧ ({ recovery := RecoveryResp.newPlan } : ExtInput).recovery = RecoveryResp.newPlan)
    ∧ (((stepNode Node.validate ⟨"", 1, true, ""⟩ { valid := false }).1 = Node.plan
      ∧ (stepNode Node.validate ⟨"", 1, true, ""⟩ { valid := false }).2.retry_count
          = (⟨"", 1, true, ""⟩ : ETLState).retry_count
      ∧ (stepNode Node.validate ⟨"", 1, true, ""⟩ { valid := false }).2.error
          = (⟨"", 1, true, ""⟩ : ETLState).error)
    ∧ ((stepNode Node.handleError ⟨"boom", 0, true, ""⟩
          { recovery := RecoveryResp.newPlan }).1 = Node.plan
      ∧ (stepNode Node.handleError ⟨"boom", 0, true, ""⟩
          { recovery := RecoveryResp.newPlan }).2.retry_count
          = (⟨"boom", 0, true, ""⟩ : ETLState).retry_count + 1
      ∧ (stepNode Node.handleError ⟨"boom", 0, true, ""⟩
          { recovery := RecoveryResp.newPlan }).2.error = "")) :=
  ⟨⟨rfl, rfl, by decide, by decide, rfl, rfl⟩,
    C1_amended_retry_paths ⟨"", 1, true, ""⟩ ⟨"boom", 0, true, ""⟩
      { valid := false } { recovery := RecoveryResp.newPlan }
      rfl rfl (by decide) (by decide) rfl rfl⟩

/-! ### Lemmas about the plan executor -/

theorem execGo_fst (plan : List Step) :
    ∀ (i : Nat) (t : Table) (log : List LogEntry),
      (execGo i t log plan).1 = plan.foldl stepTable t := by
  induction plan with
  | nil => intro i t log; simp [execGo]
  | cons s rest ih =>
      intro i t log
      simp only [execGo, List.foldl_cons]
      cases h : executeStep t s with
      | ok p => simp [ih, stepTable, h]
      | error e => simp [ih, stepTable, h]

theorem execGo_log_length (plan : List Step) :
    ∀ (i : Nat) (t : Table) (log : List LogEntry),
      (execGo i t log plan).2.length = log.length + plan.length := by
  induction plan with
  | nil => intro i t log; simp [execGo]
  | cons s rest ih =>
      intro i t log
      simp only [execGo]
      cases h : executeStep t s with
      | ok p => simp [ih]; omega
      | error e => simp [ih]; omega

theorem execGo_log_key (plan : List Step) :
    ∀ (i : Nat) (t : Table) (log : List LogEntry),
      ((execGo i t log plan).2).map logKey
        = log.map logKey
          ++ (plan.enumFrom i).map (fun p => (p.1 + 1, p.2.action, p.2.column)) := by
  induction plan with
  | nil => intro i t log; simp [execGo]
  | cons s rest ih =>
      intro i t log
      simp only [execGo, List.enumFrom]
      cases h : executeStep t s with
      | ok p => simp [ih, logKey, mkSuccess]
      | error e => simp [ih, logKey, mkFailed]

theorem execGo_log_prefix (plan : List Step) :
    ∀ (i : Nat) (t : Table) (log : List LogEntry),
      ∃ L, (execGo i t log plan).2 = log ++ L := by
  induction plan with
  | nil => intro i t log; exact ⟨[], by simp [execGo]⟩
  | cons s rest ih =>
      intro i t log
      simp only [execGo]
      cases h : executeStep t s with
      | ok p =>
          obtain ⟨L, hL⟩ := ih (i + 1) p.1 (log ++ [mkSuccess i s p.2])
          exact ⟨[mkSuccess i s p.2] ++ L, by simpa using hL⟩
      | error e =>
          obtain ⟨L, hL⟩ := ih (i + 1) t (log ++ [mkFailed i s e])
          exact ⟨[mkFailed i s e] ++ L, by simpa using hL⟩

theorem execGo_append (p1 : List Step) :
    ∀ (p2 : List Step) (i : Nat) (t : Table) (log : List LogEntry),
      execGo i t log (p1 ++ p2)
        = execGo (i + p1.length) (execGo i t log p1).1 (execGo i t log p1).2 p2 := by
  induction p1 with
  | nil => intro p2 i t log; simp [execGo]
  | cons s rest ih =>
      intro p2 i t log
      simp only [List.cons_append, execGo]
      cases h : executeStep t s with
      | ok p =>
          obtain ⟨t2, d⟩ := p
          simp only [List.append_eq]
          rw [ih]
          congr 1
          simp
          omega
      | error e =>
          simp only [List.append_eq]
          rw [ih]
          congr 1
          simp
          omega

/-- Claim C4: the execution log of `execute_plan` has exactly one entry
per input step, in the order of the steps, with 1-based indices and the
action and column of the corresponding step, regardless of the outcome
of any step. -/
theorem C4_log_one_entry_per_step (t : Table) (plan : List Step) :
    ((executePlan t plan).transformation_log).map logKey
      = plan.enum.map (fun p => (p.1 + 1, p.2.action, p.2.column)) := by
  have h := execGo_log_key plan 0 t []
  simpa [executePlan, List.enum] using h

/-- Claim C5: `execute_plan` is a total function (the embedding returns
an ExecResult for every input, mirroring the per-step exception
handler), a failing step is recorded at its position as a failed entry
carrying the error text, execution continues (the log covers all
steps), and the resulting table is the same as if the failing step had
not been in the plan at all — a failed step is a no-op on the table. -/
theorem C5_failed_step_noop (t : Table) (p1 p2 : List Step) (s : Step) (e : String)
    (h : executeStep ((executePlan t p1).transformed_data) s = .error e) :
    (executePlan t (p1 ++ s :: p2)).transformed_data
        = (executePlan t (p1 ++ p2)).transformed_data
    ∧ ((executePlan t (p1 ++ s :: p2)).transformation_log)[p1.length]?
        = some ⟨p1.length + 1, s.action, s.column, "failed", none, some e⟩
    ∧ ((executePlan t (p1 ++ s :: p2)).transformation_log).length
        = p1.length + 1 + p2.length := by
  have hT1 : (executePlan t p1).transformed_data = p1.foldl stepTable t := by
    simp [executePlan, execGo_fst]
  rw [hT1] at h
  have h2 : executeStep ((execGo 0 t [] p1).1) s = .error e := by
    rw [execGo_fst]; exact h
  refine ⟨?_, ?_, ?_⟩
  · simp only [executePlan, execGo_fst, List.foldl_append, List.foldl_cons]
    have hs : stepTable (p1.foldl stepTable t) s = p1.foldl stepTable t := by
      simp [stepTable, h]
    rw [hs]
  · have hsplit := execGo_append p1 (s :: p2) 0 t []
    have hlen1 : (execGo 0 t [] p1).2.length = p1.length := by
      simpa using execGo_log_length p1 0 t []
    simp only [executePlan]
    rw [hsplit]
    simp only [execGo, h2]
    obtain ⟨L, hL⟩ :=
      execGo_log_prefix p2 (0 + p1.length + 1) ((execGo 0 t [] p1).1)
        ((execGo 0 t [] p1).2 ++ [mkFailed (0 + p1.length) s e])
    rw [hL, List.append_assoc]
    rw [List.getElem?_append_right (by omega)]
    simp [hlen1, mkFailed]
  · simp only [executePlan]
    have hlen := execGo_log_length (p1 ++ s :: p2) 0 t []
    simp at hlen
    simp [hlen]
    omega

/-- Witness for C5: after a rename of column a to b, a later step still
addressing a fails with a KeyError, is logged as failed, and leaves the
table unchanged. -/
theorem C5_failed_step_noop_witness :
    executeStep ((executePlan t5w p1w).transformed_data) s5w = .error "KeyError: a"
    ∧ ((executePlan t5w (p1w ++ s5w :: [])).transformed_data
        = (executePlan t5w (p1w ++ [])).transformed_data
      ∧ ((executePlan t5w (p1w ++ s5w :: [])).transformation_log)[p1w.length]?
        = some ⟨p1w.length + 1, s5w.action, s5w.column, "failed", none, some "KeyError: a"⟩
      ∧ ((executePlan t5w (p1w ++ s5w :: [])).transformation_log).length
        = p1w.length + 1 + List.length ([] : List Step)) :=
  ⟨by rfl, C5_failed_step_noop t5w p1w [] s5w "KeyError: a" (by rfl)⟩

/-! ### Lemmas about the validation engine -/

theorem valStep_valid (t : Table) (acc acc2 : VResult) (r : Rule)
    (h : valStep t acc r = .ok acc2) :
    acc2.valid = (acc.valid && !(hardFailB t r)) := by
  simp only [valStep] at h
  split_ifs at h with h1 h2 h3 h4 h5 h6
  · -- not_null: soft rule, verdict unchanged
    have hf : hardFailB t r = false := by simp [hardFailB, h1]
    cases hc : ruleColCells t r.column with
    | error e => rw [hc] at h; simp at h
    | ok cells =>
        rw [hc] at h
        simp only [] at h
        rw [hf]
        split_ifs at h <;> (simp at h; subst h; simp)
  · -- positive: hard rule
    cases hc : ruleColCells t r.column with
    | error e => rw [hc] at h; simp at h
    | ok cells =>
        rw [hc] at h
        simp only [] at h
        cases hn : countNeg cells with
        | error e => rw [hn] at h; simp at h
        | ok n =>
            rw [hn] at h
            simp only [] at h
            have hf : hardFailB t r = (n != 0) := by
              simp only [hardFailB, h2, hc, hn, if_pos]
            rw [hf]
            by_cases hn0 : n = 0
            · rw [if_pos (by simp [hn0])] at h
              simp at h; subst h
              simp [hn0]
            · rw [if_neg (by simp [hn0])] at h
              simp at h; subst h
              simp [hn0]
  · -- in_range: soft rule
    have hf : hardFailB t r = false := by simp [hardFailB, h3]
    cases hc : ruleColCells t r.column with
    | error e => rw [hc] at h; simp at h
    | ok cells =>
        rw [hc] at h
        simp only [] at h
        cases hm : r.min with
        | none => rw [hm] at h; simp at h
        | some mn =>
            cases hx : r.max with
            | none => rw [hm, hx] at h; simp at h
            | some mx =>
                rw [hm, hx] at h
                simp only [] at h
                cases ho : mapME (cellOutOfRange mn mx) cells with
                | error e => rw [ho] at h; simp at h
                | ok flags =>
                    rw [ho] at h
                    simp only [] at h
                    rw [hf]
                    split_ifs at h <;> (simp at h; subst h; simp)
  · -- unique: soft rule
    have hf : hardFailB t r = false := by simp [hardFailB, h4]
    cases hc : ruleColCells t r.column with
    | error e => rw [hc] at h; simp at h
    | ok cells =>
        rw [hc] at h
        simp only [] at h
        rw [hf]
        simp at h; subst h; simp
  · -- row_count, check passed
    have hf : hardFailB t r = decide ((t.rows.length : Rat) < r.min.getD 0) := by
      simp [hardFailB, h2, h5]
    rw [hf]
    simp at h; subst h
    simp at h6
    simp [not_lt.mpr h6]
  · -- row_count, check failed: hard failure
    have hf : hardFailB t r = decide ((t.rows.length : Rat) < r.min.getD 0) := by
      simp [hardFailB, h2, h5]
    rw [hf]
    simp at h; subst h
    simp at h6
    simp [h6]
  · -- unrecognized rule type: skipped
    have hf : hardFailB t r = false := by simp [hardFailB, h2, h5]
    simp at h; subst h
    simp [hf]

theorem foldVR_valid (t : Table) (rules : List Rule) :
    ∀ (acc res : VResult), foldVR (valStep t) acc rules = .ok res →
      res.valid = (acc.valid && !(rules.any (hardFailB t))) := by
  induction rules with
  | nil =>
      intro acc res h
      simp [foldVR] at h
      subst h
      simp
  | cons r rs ih =>
      intro acc res h
      simp only [foldVR] at h
      cases hr : valStep t acc r with
      | error e => rw [hr] at h; simp at h
      | ok acc2 =>
          rw [hr] at h
          have h2 := ih acc2 res h
          rw [h2, valStep_valid t acc acc2 r hr]
          simp [Bool.and_assoc]

/-- Claim C3: the overall verdict of `validate_data` is False exactly
when some hard rule (positive or row_count) fails; failures of the soft
rules (not_null, in_range, unique) are appended to the checks (and
warnings) but never flip the verdict.  The embedding is a pure function
of the table and the rules, as the source only reads the frame. -/
theorem C3_verdict_iff_hard_failure (t : Table) (rules : List Rule) (res : VResult)
    (h : validateData t rules = .ok res) :
    res.valid = false ↔ rules.any (hardFailB t) = true := by
  have hv := foldVR_valid t rules ⟨true, [], [], []⟩ res h
  simp at hv
  rw [hv]
  cases rules.any (hardFailB t) <;> simp

/-- Witness for C3: a column with one negative value under a positive
rule gives a False verdict, and the equivalence holds at this input. -/
theorem C3_verdict_iff_hard_failure_witness :
    validateData w3t w3rules = .ok w3res
    ∧ (w3res.valid = false ↔ w3rules.any (hardFailB w3t) = true) :=
  ⟨by rfl, C3_verdict_iff_hard_failure w3t w3rules w3res (by rfl)⟩

/-! ### List lemmas shared by the remaining claims -/

theorem mapME_ok {α β : Type} (g : α → Except String β) (f : α → β) :
    ∀ l : List α, (∀ a ∈ l, g a = .ok (f a)) → mapME g l = .ok (l.map f) := by
  intro l
  induction l with
  | nil => intro _; simp [mapME]
  | cons a as ih =>
      intro hall
      simp only [mapME]
      rw [hall a (by simp), ih (fun b hb => hall b (by simp [hb]))]
      simp

theorem zip_map_filter {α : Type} (f : α → Bool) :
    ∀ l : List α,
      ((l.zip (l.map f)).filter (fun p => p.2)).map (fun p => p.1) = l.filter f := by
  intro l
  induction l with
  | nil => simp
  | cons x xs ih =>
      simp only [List.map_cons, List.zip_cons_cons, List.filter_cons]
      cases hx : f x <;> simp [hx, ih, List.filter_cons]

theorem count_true_map {α : Type} (f : α → Bool) :
    ∀ l : List α, (l.map f).count true = l.countP f := by
  intro l
  induction l with
  | nil => simp
  | cons x xs ih =>
      simp only [List.map_cons, List.count_cons, List.countP_cons, ih]
      cases hx : f x <;> simp [hx]

theorem mapCol_rows_length (t : Table) (i : Nat) (f : Cell → Cell) :
    (mapCol t i f).rows.length = t.rows.length := by
  simp [mapCol]

theorem colCells_length (t : Table) (i : Nat) :
    (colCells t i).length = t.rows.length := by
  simp [colCells]

theorem ffillGo_length (l : List Cell) : ∀ c : Cell, (ffillGo c l).length = l.length := by
  induction l with
  | nil => intro c; simp [ffillGo]
  | cons x xs ih =>
      intro c
      cases x <;> simp [ffillGo, ih]

theorem setColList_rows_length (t : Table) (i : Nat) (cells : List Cell)
    (h : cells.length = t.rows.length) : (setColList t i cells).rows.length = t.rows.length := by
  simp [setColList, h]

theorem filter_isSome_length (i : Nat) :
    ∀ rows : List (List Cell),
      (rows.filter (fun r => (cellAt r i).isSome)).length
        = rows.length - (rows.map (fun r => cellAt r i)).count none := by
  intro rows
  induction rows with
  | nil => simp
  | cons r rest ih =>
      have hle : (rest.map (fun r => cellAt r i)).count none
          ≤ (rest.map (fun r => cellAt r i)).length := List.count_le_length _ _
      simp only [List.map_cons, List.count_cons, List.filter_cons, List.length_cons]
      cases hcell : cellAt r i with
      | none => simp [hcell, ih]
      | some v =>
          simp [hcell, ih]
          simp at hle
          omega

theorem dedupKeysAux_sublist {α κ : Type} [DecidableEq κ] (key : α → κ) :
    ∀ (l : List α) (seen : List κ), (dedupKeysAux key seen l).Sublist l := by
  intro l
  induction l with
  | nil => intro seen; simp [dedupKeysAux]
  | cons x xs ih =>
      intro seen
      simp only [dedupKeysAux]
      split_ifs with hx
      · exact (ih seen).cons x
      · exact (ih (key x :: seen)).cons₂ x

theorem dedupKeysAux_props {α κ : Type} [DecidableEq κ] (key : α → κ) :
    ∀ (l : List α) (seen : List κ),
      ((dedupKeysAux key seen l).map key).Nodup
      ∧ ∀ k ∈ (dedupKeysAux key seen l).map key, k ∉ seen := by
  intro l
  induction l with
  | nil => intro seen; simp [dedupKeysAux]
  | cons x xs ih =>
      intro seen
      simp only [dedupKeysAux]
      split_ifs with hx
      · exact ih seen
      · obtain ⟨hnd, hnotin⟩ := ih (key x :: seen)
        constructor
        · simp only [List.map_cons, List.nodup_cons]
          constructor
          · intro hmem
            exact (hnotin (key x) hmem) (by simp)
          · exact hnd
        · intro k hk
          simp only [List.map_cons, List.mem_cons] at hk
          cases hk with
          | inl hkx => rw [hkx]; exact hx
          | inr hkm =>
              intro hks
              exact (hnotin k hkm) (by simp [hks])

theorem dedupKeysAux_id {α κ : Type} [DecidableEq κ] (key : α → κ) :
    ∀ (l : List α) (seen : List κ), ((l.map key).Nodup) →
      (∀ k ∈ l.map key, k ∉ seen) → dedupKeysAux key seen l = l := by
  intro l
  induction l with
  | nil => intro seen _ _; simp [dedupKeysAux]
  | cons x xs ih =>
      intro seen hnd hnotin
      simp only [List.map_cons, List.nodup_cons] at hnd
      have hxs : key x ∉ seen := hnotin (key x) (by simp)
      simp only [dedupKeysAux, if_neg hxs]
      congr 1
      apply ih (key x :: seen) hnd.2
      intro k hk
      simp only [List.mem_cons, not_or]
      exact ⟨fun hkx => hnd.1 (hkx ▸ hk), hnotin k (by simp [hk])⟩

/-! ### Claims about the individual transformation steps -/

theorem cellLt0_ok (c : Cell) (h : numOrNull c = true) : cellLt0 c = .ok (ltB c) := by
  cases c with
  | none => rfl
  | some v => cases v <;> simp [numOrNull] at h ⊢ <;> rfl

theorem cellGe0_ok (c : Cell) (h : numOrNull c = true) : cellGe0 c = .ok (geB c) := by
  cases c with
  | none => rfl
  | some v => cases v <;> simp [numOrNull] at h ⊢ <;> rfl

theorem reqColIdx_ok (t : Table) (c : String) (i : Nat) (hi : colIdx t c = some i) :
    reqColIdx t (some c) = .ok (c, i) := by
  simp [reqColIdx, hi]

/-- Counterexample to claim C6: a table whose single row holds a null
in the target column.  `remove_negative` keeps only the rows where the
column compares `>= 0`, and a null compares False, so the null row is
removed — the claim says it is retained — while the success detail still
reports 0 rows removed (it counts only strictly negative values). -/
theorem C6_counterexample_null_row_dropped :
    executeStep (⟨["a"], [[(none : Cell)]]⟩ : Table)
        { action := some "remove_negative", column := some "a" }
      = .ok ((⟨["a"], []⟩ : Table), "Removed 0 rows with negative values")
    ∧ (⟨["a"], [[(none : Cell)]]⟩ : Table).rows.length = 1 :=
  ⟨by rfl, by rfl⟩

/-- Claim C6 as amended: on a numeric-or-null column, `remove_negative`
keeps exactly the rows whose value in the target column is `>= 0` —
rows with a negative value and rows where the column is null are both
removed — and the success detail reports the count of strictly negative
values (which falls short of the number of removed rows when nulls are
present). -/
theorem C6_amended_remove_negative (t : Table) (c : String) (i : Nat)
    (hi : colIdx t c = some i)
    (hnum : ∀ cl ∈ colCells t i, numOrNull cl = true) :
    executeStep t { action := some "remove_negative", column := some c }
      = .ok ({ t with rows := t.rows.filter (fun r => geB (cellAt r i)) },
          s!"Removed {(colCells t i).countP ltB} rows with negative values") := by
  show removeNegative t (some c) = _
  have hlt : mapME cellLt0 (colCells t i) = .ok ((colCells t i).map ltB) :=
    mapME_ok cellLt0 ltB _ (fun a ha => cellLt0_ok a (hnum a ha))
  have hge : mapME cellGe0 (colCells t i) = .ok ((colCells t i).map geB) :=
    mapME_ok cellGe0 geB _ (fun a ha => cellGe0_ok a (hnum a ha))
  simp only [removeNegative, reqColIdx_ok t c i hi, hlt, hge]
  have hrows : ((t.rows.zip ((colCells t i).map geB)).filter (fun p => p.2)).map
        (fun p => p.1)
      = t.rows.filter (fun r => geB (cellAt r i)) := by
    have : (colCells t i).map geB = t.rows.map (fun r => geB (cellAt r i)) := by
      simp [colCells, List.map_map]
    rw [this]
    exact zip_map_filter _ t.rows
  have hcount : ((colCells t i).map ltB).count true = (colCells t i).countP ltB :=
    count_true_map ltB _
  rw [hrows, hcount]

/-- Witness for the amended C6: a column with a positive value, a
negative value and a null keeps only the positive row, and the detail
reports 1 removed although 2 rows disappeared. -/
theorem C6_amended_remove_negative_witness :
    (colIdx w6t "a" = some 0 ∧ ∀ cl ∈ colCells w6t 0, numOrNull cl = true)
    ∧ executeStep w6t { action := some "remove_negative", column := some "a" }
      = .ok ({ w6t with rows := w6t.rows.filter (fun r => geB (cellAt r 0)) },
          s!"Removed {(colCells w6t 0).countP ltB} rows with negative values") :=
  ⟨⟨by rfl, by decide⟩, C6_amended_remove_negative w6t "a" 0 (by rfl) (by decide)⟩

/-- Claim C7: `fill_null` with the row-dropping strategy (spelled
"drop" in the source, "drop-rows" in the spec) keeps exactly the rows
whose target cell is non-null — so a column with k nulls loses exactly
k rows and every surviving row is untouched — while every other
strategy string leaves the row count unchanged, whether the step
succeeds or fails. -/
theorem C7_fill_null_drop (t : Table) (c : String) (i : Nat) (strat : Option String)
    (v : Option Val) (hi : colIdx t c = some i) (hne : strat ≠ some "drop") :
    (executeStep t
        { action := some "fill_null", column := some c, strategy := some "drop", value := v }
      = .ok ({ t with rows := t.rows.filter (fun r => (cellAt r i).isSome) },
          s!"Dropped {(colCells t i).count none} rows with null values")
      ∧ (t.rows.filter (fun r => (cellAt r i).isSome)).length
          = t.rows.length - (colCells t i).count none)
    ∧ (stepTable t
        { action := some "fill_null", column := some c, strategy := strat, value := v }).rows.length
      = t.rows.length := by
  refine ⟨⟨?_, ?_⟩, ?_⟩
  · show fillNull t (some c) (some "drop") v = _
    simp only [fillNull, reqColIdx_ok t c i hi]
    simp
  · exact filter_isSome_length i t.rows
  · have hexec : executeStep t
        { action := some "fill_null", column := some c, strategy := strat, value := v }
        = fillNull t (some c) strat v := rfl
    simp only [stepTable, hexec, fillNull, reqColIdx_ok t c i hi]
    by_cases h1 : strat = some "value"
    · rw [if_pos h1]
      cases v with
      | none => simp
      | some v0 => simp [mapCol_rows_length]
    · rw [if_neg h1]
      by_cases h2 : strat = some "mean"
      · rw [if_pos h2]
        cases hn : numsOf (colCells t i) <;> simp [mapCol_rows_length]
      · rw [if_neg h2]
        by_cases h3 : strat = some "median"
        · rw [if_pos h3]
          cases hn : numsOf (colCells t i) <;> simp [mapCol_rows_length]
        · rw [if_neg h3]
          by_cases h4 : strat = some "mode"
          · rw [if_pos h4]
            cases hm : modeOf ((colCells t i).filterMap id) <;> simp [mapCol_rows_length]
          · rw [if_neg h4]
            by_cases h5 : strat = some "forward_fill"
            · rw [if_pos h5]
              show (setColList t i (ffillGo none (colCells t i))).rows.length
                  = t.rows.length
              exact setColList_rows_length t i _
                (by rw [ffillGo_length, colCells_length])
            · rw [if_neg h5, if_neg hne]

/-- Witness for C7: a column with two nulls loses exactly two rows
under "drop", and the "mean" strategy keeps the row count at 3. -/
theorem C7_fill_null_drop_witness :
    (colIdx w7t "a" = some 0 ∧ (some "mean" : Option String) ≠ some "drop")
    ∧ ((executeStep w7t
        { action := some "fill_null", column := some "a", strategy := some "drop",
          value := none }
      = .ok ({ w7t with rows := w7t.rows.filter (fun r => (cellAt r 0).isSome) },
          s!"Dropped {(colCells w7t 0).count none} rows with null values")
      ∧ (w7t.rows.filter (fun r => (cellAt r 0).isSome)).length
          = w7t.rows.length - (colCells w7t 0).count none)
    ∧ (stepTable w7t
        { action := some "fill_null", column := some "a", strategy := some "mean",
          value := none }).rows.length
      = w7t.rows.length) :=
  ⟨⟨by rfl, by decide⟩,
    C7_fill_null_drop w7t "a" 0 (some "mean") none (by rfl) (by decide)⟩

/-- Claim C8: an `add_derived_column` step whose identifier is outside
the fixed allowlist, and a `filter_rows` step whose condition is
outside the fixed set, both fail with the corresponding ValueError,
leave the table unchanged, and are recorded as failed log entries; and
the expression field of a step never influences execution (the source
never reads it — only the three hard-coded derivations are ever
evaluated). -/
theorem C8_allowlist_rejection (t : Table) (nc cond : String) (s1 s2 : Step)
    (e1 e2 : Option String)
    (h1 : s1.action = some "add_derived_column") (h2 : s1.new_column = some nc)
    (h3 : nc ∉ (["trip_duration_minutes", "fare_per_mile", "tip_percentage"] : List String))
    (h4 : s2.action = some "filter_rows") (h5 : s2.condition = some cond)
    (h6 : cond ∉ (["valid_trip_distance", "valid_fare", "valid_passengers"] : List String)) :
    executeStep t s1 = .error s!"Unknown derived column: {nc}"
    ∧ stepTable t s1 = t
    ∧ (executePlan t [s1]).transformation_log
        = [⟨1, s1.action, s1.column, "failed", none, some s!"Unknown derived column: {nc}"⟩]
    ∧ executeStep t s2 = .error s!"Unknown filter condition: {cond}"
    ∧ stepTable t s2 = t
    ∧ executeStep t { s1 with expression := e1 } = executeStep t { s1 with expression := e2 } := by
  simp only [List.mem_cons, List.mem_singleton, not_or] at h3 h6
  obtain ⟨h3a, h3b, h3c, -⟩ := h3
  obtain ⟨h6a, h6b, h6c, -⟩ := h6
  have hs1 : executeStep t s1 = .error s!"Unknown derived column: {nc}" := by
    simp only [executeStep, h1]
    simp only [addDerivedColumn, h2]
    simp [optStr, h3a, h3b, h3c]
  have hs2 : executeStep t s2 = .error s!"Unknown filter condition: {cond}" := by
    simp only [executeStep, h4]
    simp only [filterRows, h5]
    simp [optStr, h6a, h6b, h6c]
  refine ⟨hs1, by simp [stepTable, hs1], ?_, hs2, by simp [stepTable, hs2], rfl⟩
  simp [executePlan, execGo, hs1, mkFailed]

/-- Witness for C8 at an unknown derivation and an unknown condition. -/
theorem C8_allowlist_rejection_witness :
    (w8s1.action = some "add_derived_column" ∧ w8s1.new_column = some "os_command"
      ∧ "os_command"
          ∉ (["trip_duration_minutes", "fare_per_mile", "tip_percentage"] : List String)
      ∧ w8s2.action = some "filter_rows" ∧ w8s2.condition = some "drop_table"
      ∧ "drop_table"
          ∉ (["valid_trip_distance", "valid_fare", "valid_passengers"] : List String))
    ∧ (executeStep w8t w8s1 = .error "Unknown derived column: os_command"
      ∧ stepTable w8t w8s1 = w8t
      ∧ (executePlan w8t [w8s1]).transformation_log
          = [⟨1, w8s1.action, w8s1.column, "failed", none,
              some "Unknown derived column: os_command"⟩]
      ∧ executeStep w8t w8s2 = .error "Unknown filter condition: drop_table"
      ∧ stepTable w8t w8s2 = w8t
      ∧ executeStep w8t { w8s1 with expression := some "import os" }
          = executeStep w8t { w8s1 with expression := none }) :=
  ⟨⟨rfl, rfl, by decide, rfl, rfl, by decide⟩,
    C8_allowlist_rejection w8t "os_command" "drop_table" w8s1 w8s2
      (some "import os") none rfl rfl (by decide) rfl rfl (by decide)⟩

/-- Claim C9: `remove_duplicates` without a subset keeps the first
occurrence of every row (the result is a sublist of the input rows)
and is idempotent: a second application returns the same table and
removes 0 rows. -/
theorem C9_remove_duplicates_idempotent (t t2 : Table) (d : String)
    (h : removeDuplicates t none = .ok (t2, d)) :
    removeDuplicates t2 none = .ok (t2, "Removed 0 duplicate rows")
    ∧ t2.rows.Sublist t.rows := by
  simp only [removeDuplicates] at h
  have ht2 : t2 = { t with rows := dedupKeysAux (fun r => r) [] t.rows } := by
    simp only [Except.ok.injEq, Prod.mk.injEq] at h
    exact h.1.symm
  have hid : dedupKeysAux (fun r => r) [] t2.rows = t2.rows := by
    rw [ht2]
    apply dedupKeysAux_id
    · have := (dedupKeysAux_props (fun r : List Cell => r) t.rows []).1
      simpa using this
    · simp
  constructor
  · simp only [removeDuplicates, hid, Nat.sub_self]
    rfl
  · rw [ht2]
    exact dedupKeysAux_sublist _ t.rows []

/-- Witness for C9 on a table with a duplicated row. -/
theorem C9_remove_duplicates_idempotent_witness :
    removeDuplicates w9t none
      = .ok ((⟨["a"], [[some (Val.num 1)], [some (Val.num 2)]]⟩ : Table),
          "Removed 1 duplicate rows")
    ∧ (removeDuplicates (⟨["a"], [[some (Val.num 1)], [some (Val.num 2)]]⟩ : Table) none
        = .ok ((⟨["a"], [[some (Val.num 1)], [some (Val.num 2)]]⟩ : Table),
            "Removed 0 duplicate rows")
      ∧ (⟨["a"], [[some (Val.num 1)], [some (Val.num 2)]]⟩ : Table).rows.Sublist w9t.rows) :=
  ⟨by rfl,
    C9_remove_duplicates_idempotent w9t
      (⟨["a"], [[some (Val.num 1)], [some (Val.num 2)]]⟩ : Table)
      "Removed 1 duplicate rows" (by rfl)⟩

/-- Claim C10: a `fill_null` step whose strategy string is outside the
recognized set — including the strategy name "drop-rows" that the spec
uses — falls through every branch of `_fill_null`: it is logged as a
success whose detail claims "Filled k null values using {strategy}"
while the table is left completely unchanged. -/
theorem C10_unknown_strategy_silent_noop (t : Table) (c : String) (i : Nat) (strat : String)
    (v : Option Val) (hi : colIdx t c = some i)
    (hs : strat ∉ (["value", "mean", "median", "mode", "forward_fill", "drop"] : List String)) :
    executeStep t
        { action := some "fill_null", column := some c, strategy := some strat, value := v }
      = .ok (t, s!"Filled {(colCells t i).count none} null values using {strat}")
    ∧ (executePlan t
        [{ action := some "fill_null", column := some c, strategy := some strat, value := v }]).transformation_log
      = [⟨1, some "fill_null", some c, "success",
          some s!"Filled {(colCells t i).count none} null values using {strat}", none⟩] := by
  simp only [List.mem_cons, List.mem_singleton, not_or] at hs
  obtain ⟨hs1, hs2, hs3, hs4, hs5, hs6, -⟩ := hs
  have hexec : executeStep t
      { action := some "fill_null", column := some c, strategy := some strat, value := v }
      = .ok (t, s!"Filled {(colCells t i).count none} null values using {strat}") := by
    show fillNull t (some c) (some strat) v = _
    simp only [fillNull, reqColIdx_ok t c i hi]
    rw [if_neg (by simp [hs1]), if_neg (by simp [hs2]), if_neg (by simp [hs3]),
      if_neg (by simp [hs4]), if_neg (by simp [hs5]), if_neg (by simp [hs6])]
    simp [optStr]
  refine ⟨hexec, ?_⟩
  simp [executePlan, execGo, hexec, mkSuccess]

/-- Witness for C10 at the spec-level strategy name "drop-rows": the
step succeeds, claims to have filled 1 null value, and changes
nothing. -/
theorem C10_unknown_strategy_silent_noop_witness :
    (colIdx w10t "a" = some 0
      ∧ "drop-rows" ∉ (["value", "mean", "median", "mode", "forward_fill", "drop"] : List String))
    ∧ (executeStep w10t
        { action := some "fill_null", column := some "a", strategy := some "drop-rows",
          value := none }
      = .ok (w10t, s!"Filled {(colCells w10t 0).count none} null values using drop-rows")
    ∧ (executePlan w10t
        [{ action := some "fill_null", column := some "a", strategy := some "drop-rows",
           value := none }]).transformation_log
      = [⟨1, some "fill_null", some "a", "success",
          some s!"Filled {(colCells w10t 0).count none} null values using drop-rows", none⟩]) :=
  ⟨⟨by rfl, by decide⟩,
    C10_unknown_strategy_silent_noop w10t "a" 0 "drop-rows" none (by rfl) (by decide)⟩

end ETLSpec
